import Mathlib

/-!
Verification of the gRPC explorer generation script (`script.js`).

The script is shallowly embedded below: each JavaScript function becomes a
Lean definition with the same name where possible.  Network nondeterminism
(whether a reflection call against an endpoint succeeds on a given attempt)
is modelled by an oracle `f : String → Nat → Option α` mapping an endpoint
and a 1-based attempt number to `some result` (success) or `none` (failure).
Console output and file-system writes are modelled as data: an event trace
for the failover loop, and `(path, content)` pairs for written files.
-/

namespace GrpcExplorer

/-! ### JavaScript string primitives used by the script -/

/-- Characters trimmed by `String.prototype.trim` (ASCII subset, which is all
the script's inputs use). -/
def isJsSpace (c : Char) : Bool :=
  c = ' ' || c = '\t' || c = '\n' || c = '\r'

/-- `s.trim()` on the ASCII whitespace the script encounters. -/
def jsTrim (s : String) : String :=
  ⟨((s.data.dropWhile isJsSpace).reverse.dropWhile isJsSpace).reverse⟩

/-- Helper for `jsSplit`: split a character list at a separator character. -/
def splitOnCharAux (sep : Char) : List Char → List Char → List (List Char)
  | [], acc => [acc.reverse]
  | c :: rest, acc =>
    if c = sep then acc.reverse :: splitOnCharAux sep rest []
    else splitOnCharAux sep rest (c :: acc)

/-- `s.split(sep)` for a single-character separator (the script splits on
`','`, `':'` and `'.'`).  `"".split(sep)` is `[""]`, as in JavaScript. -/
def jsSplit (s : String) (sep : Char) : List String :=
  (splitOnCharAux sep s.data []).map (fun l => ⟨l⟩)

/-- Helper for `jsIncludes`: substring occurrence on character lists. -/
def hasSubstrList (pat : List Char) : List Char → Bool
  | [] => pat.isEmpty
  | c :: rest => pat.isPrefixOf (c :: rest) || hasSubstrList pat rest

/-- `s.includes(pat)`. -/
def jsIncludes (s pat : String) : Bool :=
  hasSubstrList pat.data s.data

/-- `s.startsWith(pat)`. -/
def jsStartsWith (s pat : String) : Bool :=
  pat.data.isPrefixOf s.data

/-- `s.substring(n)` (drop the first `n` characters). -/
def strDrop (s : String) (n : Nat) : String :=
  ⟨s.data.drop n⟩

/-- `s.toLowerCase()` on the ASCII names the script handles. -/
def strToLower (s : String) : String :=
  ⟨s.data.map Char.toLower⟩

/-- Concatenation of a list of strings (the `+=` accumulation loops). -/
def concatStrings : List String → String
  | [] => ""
  | s :: rest => s ++ concatStrings rest

/-! ### Constants (`script.js` lines 8-10) -/

def OUT_DIR : String := "./output"

def RETRIES : Nat := 3

def RETRY_DELAY_MS : Nat := 2000

/-! ### The failover invoker (`fetchWithFailover`, lines 54-75)

The observable behaviour of one invocation is a trace of events:
`create ep` models `makeReflClient(ep)` (construction of a reflection
client), `attempt ep n s` models the `await client[fnName](...args)` call
on attempt `n`, and `wait ms` models the retry backoff sleep. -/

inductive Event where
  | create (ep : String)
  | attempt (ep : String) (n : Nat) (success : Bool)
  | wait (ms : Nat)
deriving DecidableEq, Repr

/-- Whether an event is an operation attempt against endpoint `e`. -/
def Event.attemptsOn : Event → String → Bool
  | .attempt ep _ _, e => decide (ep = e)
  | _, _ => false

/-- Whether an event is an operation attempt at all. -/
def Event.isAttemptEv : Event → Bool
  | .attempt _ _ _ => true
  | _ => false

/-- The endpoint of a client-creation event, if any. -/
def Event.createdEp : Event → Option String
  | .create ep => some ep
  | _ => none

/-- The inner retry loop of `fetchWithFailover`
(`for (let attempt = 1; attempt <= RETRIES; attempt++)`, lines 58-71):
attempts start at number `a` with `fuel` iterations remaining; a failed
attempt other than the last is followed by a `RETRY_DELAY_MS` wait.
Returns the emitted events and the result of the first successful attempt
(if any). -/
def runAttempts (f : String → Nat → Option α) (ep : String) :
    Nat → Nat → List Event × Option α
  | _, 0 => ([], none)
  | a, fuel + 1 =>
    match f ep a with
    | some r => ([Event.attempt ep a true], some r)
    | none =>
      ((Event.attempt ep a false ::
          (if a < RETRIES then [Event.wait RETRY_DELAY_MS] else [])) ++
         (runAttempts f ep (a + 1) fuel).1,
       (runAttempts f ep (a + 1) fuel).2)

/-- One full endpoint visit: `makeReflClient(ep)` (the `create` event,
line 57) followed by the retry loop. -/
def tryEndpoint (f : String → Nat → Option α) (ep : String) :
    List Event × Option α :=
  (Event.create ep :: (runAttempts f ep 1 RETRIES).1,
   (runAttempts f ep 1 RETRIES).2)

/-- The outcome of the retry loop on one endpoint. -/
def epResult (f : String → Nat → Option α) (ep : String) : Option α :=
  (runAttempts f ep 1 RETRIES).2

/-- The error message thrown when every endpoint is exhausted (line 74). -/
def allFailedMsg (fn : String) : String :=
  "[" ++ fn ++ "] all endpoints failed"

/-- `fetchWithFailover(endpoints, fnName, ...args)` (lines 54-75): visit the
endpoints in order, run the retry loop on each, return the first success
together with the endpoint that produced it, and throw once the list is
exhausted.  The first component is the event trace of the invocation. -/
def fetchWithFailover (f : String → Nat → Option α) (fn : String) :
    List String → List Event × Except String (α × String)
  | [] => ([], Except.error (allFailedMsg fn))
  | ep :: rest =>
    match epResult f ep with
    | some r => ((tryEndpoint f ep).1, Except.ok (r, ep))
    | none =>
      ((tryEndpoint f ep).1 ++ (fetchWithFailover f fn rest).1,
       (fetchWithFailover f fn rest).2)

/-- The endpoints actually visited by one invocation, in order:
the failing prefix plus, when some endpoint succeeds, that endpoint. -/
def visitedEndpoints (f : String → Nat → Option α) : List String → List String
  | [] => []
  | ep :: rest =>
    match epResult f ep with
    | some _ => [ep]
    | none => ep :: visitedEndpoints f rest

/-! ### Chain identity resolution (`getChainId`, lines 78-114)

The source wraps the heuristics in `try`/`catch`, but the body performs no
operation that can throw, so only the `try` branch is modelled. -/

/-- One character of `replace(/[^a-zA-Z0-9-]/g, '-')`. -/
def sanitizeChainChar (c : Char) : Char :=
  if c.isAlphanum || c = '-' then c else '-'

/-- `endpoint.split(':')[0].replace(/[^a-zA-Z0-9-]/g, '-')` (line 105). -/
def sanitizeHost (endpoint : String) : String :=
  ⟨((jsSplit endpoint ':').headD "").data.map sanitizeChainChar⟩

/-- `getChainId(endpoint)` (lines 78-114): the fixed `includes` chain over
the whole endpoint string, falling back to the sanitized host portion. -/
def getChainId (endpoint : String) : String :=
  if jsIncludes endpoint "cosmoshub" then "cosmoshub-4"
  else if jsIncludes endpoint "osmosis" then "osmosis-1"
  else if jsIncludes endpoint "neutron" then "neutron-1"
  else if jsIncludes endpoint "juno" then "juno-1"
  else if jsIncludes endpoint "akash" then "akashnet-2"
  else sanitizeHost endpoint

/-- The heuristic substring table, in the order the source checks it. -/
def chainTable : List (String × String) :=
  [("cosmoshub", "cosmoshub-4"), ("osmosis", "osmosis-1"),
   ("neutron", "neutron-1"), ("juno", "juno-1"), ("akash", "akashnet-2")]

/-- Modelled from the spec: the claim's reading of `getChainId` in which the
substring table is matched against the endpoint's host portion (the text
before the first `':'`) rather than the whole endpoint string.  Used only to
compare the claim against the source behaviour. -/
def getChainIdHostMatched (endpoint : String) : String :=
  let host := (jsSplit endpoint ':').headD ""
  if jsIncludes host "cosmoshub" then "cosmoshub-4"
  else if jsIncludes host "osmosis" then "osmosis-1"
  else if jsIncludes host "neutron" then "neutron-1"
  else if jsIncludes host "juno" then "juno-1"
  else if jsIncludes host "akash" then "akashnet-2"
  else sanitizeHost endpoint

/-! ### Network configuration resolver (`getNetworkConfigs`, lines 14-45) -/

structure NetworkConfig where
  name : String
  endpoints : List String
deriving DecidableEq, Repr

/-- `value.split(',').map(s => s.trim()).filter(Boolean)` (lines 19 and 30). -/
def parseEndpoints (v : String) : List String :=
  ((jsSplit v ',').map jsTrim).filter (fun s => s ≠ "")

/-- Lookup of an environment variable in the process environment, modelled
as an association list in `Object.entries` order. -/
def envLookup (env : List (String × String)) (k : String) : Option String :=
  (env.find? (fun p => p.1 = k)).map Prod.snd

/-- `getNetworkConfigs()` (lines 14-39): the legacy `GRPC` variable first
(JavaScript truthiness makes the empty string falsy), then one network per
truthy `GRPC_*` variable, named by the lower-cased suffix of the key. -/
def getNetworkConfigs (env : List (String × String)) : List NetworkConfig :=
  (match envLookup env "GRPC" with
   | some v => if v ≠ "" then [⟨"default", parseEndpoints v⟩] else []
   | none => []) ++
  env.filterMap (fun p =>
    if jsStartsWith p.1 "GRPC_" then
      if p.2 ≠ "" then some ⟨strToLower (strDrop p.1 5), parseEndpoints p.2⟩
      else none
    else none)

/-! ### Paths (`path.join` and the manifest path computation) -/

/-- Segment normalization of Node's `path.posix.normalize` for the relative
paths the script builds: empty and `.` segments are dropped and `..` pops
the previous segment. -/
def normSegs (segs : List String) : List String :=
  segs.foldl (fun acc s =>
    if s = "" ∨ s = "." then acc
    else if s = ".." then
      match acc.getLast? with
      | some t => if t = ".." then acc ++ [s] else acc.dropLast
      | none => acc ++ [s]
    else acc ++ [s]) []

/-- Node's `path.join` on the relative paths the script builds:
concatenate the parts with `/` and normalize. -/
def pathJoin (parts : List String) : String :=
  let segs := (parts.map (fun p => jsSplit p '/')).flatten
  let ns := normSegs segs
  if ns.isEmpty then "." else String.intercalate "/" ns

/-- Helper for `jsReplaceFirst`: replace the first occurrence of `pat`. -/
def replaceFirstAux (pat repl : List Char) : List Char → List Char
  | [] => []
  | c :: rest =>
    if pat.isPrefixOf (c :: rest) then repl ++ (c :: rest).drop pat.length
    else c :: replaceFirstAux pat repl rest

/-- `s.replace(pat, repl)` with a string pattern: JavaScript replaces only
the first occurrence, and returns the string unchanged when `pat` does not
occur. -/
def jsReplaceFirst (s pat repl : String) : String :=
  if pat = "" then ⟨repl.data ++ s.data⟩
  else ⟨replaceFirstAux pat.data repl.data s.data⟩

/-! ### Descriptors (the shapes consumed from `grpc-reflection-js`) -/

structure MethodDesc where
  requestType : String
  responseType : String
  requestStream : Bool
  responseStream : Bool
deriving DecidableEq, Repr

structure FieldDesc where
  name : String
  type : String
  id : Nat
  repeated : Bool
deriving DecidableEq, Repr

/-- A message descriptor; `fields = none` models a descriptor object whose
`fields` property is absent (the `!msg.fields` guard at line 211). -/
structure MsgDesc where
  name : String
  fields : Option (List FieldDesc)
deriving DecidableEq, Repr

/-- A service descriptor: `methods` is the ordered name → method mapping
(`Object.entries` order). -/
structure ServiceDef where
  name : String
  methods : List (String × MethodDesc)
deriving DecidableEq, Repr

/-- The protobuf root returned by `fileContainingSymbol`: services are
resolvable (the script never guards `lookupService`), message types may be
absent (the `!msg` guard at line 211). -/
structure Root where
  lookupService : String → ServiceDef
  lookupType : String → Option MsgDesc

/-! ### Descriptor rendering (lines 185-219) -/

/-- The four comment header lines both artifacts begin with (lines 185-188
and 205-208).  `now` stands for `new Date().toISOString()`. -/
def headerText (chainId netName svc now : String) : String :=
  "// Chain: " ++ chainId ++ "\n// Network: " ++ netName ++
  "\n// Service: " ++ svc ++ "\n// Generated: " ++ now ++ "\n\n"

/-- One `rpc` line (line 193). -/
def renderMethodLine (mName : String) (m : MethodDesc) : String :=
  "  rpc " ++ mName ++ " (" ++ (if m.requestStream then "stream " else "") ++
  m.requestType ++ ") returns (" ++
  (if m.responseStream then "stream " else "") ++ m.responseType ++ ");\n"

/-- The `.svc.proto` artifact (lines 185-195). -/
def svcProtoText (chainId netName svc now : String) (sd : ServiceDef) : String :=
  headerText chainId netName svc now ++
  "service " ++ sd.name ++ " \x7b\n" ++
  concatStrings (sd.methods.map (fun p => renderMethodLine p.1 p.2)) ++
  "\x7d\n"

/-- The request and response types referenced by the methods, in method
order with each method's request type before its response type. -/
def methodRefTypes (methods : List (String × MethodDesc)) : List String :=
  methods.flatMap (fun m => [m.2.requestType, m.2.responseType])

/-- One step of `Set.prototype.add` on an insertion-ordered set. -/
def insertNew (acc : List String) (t : String) : List String :=
  if t ∈ acc then acc else acc ++ [t]

/-- `const used = new Set(); ... used.add(req); used.add(res)`
(lines 200-204): a JavaScript `Set` iterates in insertion order. -/
def usedTypes (methods : List (String × MethodDesc)) : List String :=
  (methodRefTypes methods).foldl insertNew []

/-- One field line (line 215). -/
def renderField (f : FieldDesc) : String :=
  "  " ++ (if f.repeated then "repeated " else "") ++ f.type ++ " " ++
  f.name ++ " = " ++ toString f.id ++ ";\n"

/-- One `message` block (lines 212-217). -/
def renderMessage (m : MsgDesc) (fs : List FieldDesc) : String :=
  "message " ++ m.name ++ " \x7b\n" ++
  concatStrings (fs.map renderField) ++ "\x7d\n\n"

/-- The block rendered for one referenced type name, or `none` when the
`if (!msg || !msg.fields) continue;` guard (line 211) skips it. -/
def renderTypeOpt (lookup : String → Option MsgDesc) (t : String) : Option String :=
  match lookup t with
  | none => none
  | some m =>
    match m.fields with
    | none => none
    | some fs => some (renderMessage m fs)

/-- The `for (const typeName of used)` loop (lines 209-218). -/
def msgBlocksText (lookup : String → Option MsgDesc) : List String → String
  | [] => ""
  | t :: rest =>
    (match renderTypeOpt lookup t with
     | none => ""
     | some s => s) ++ msgBlocksText lookup rest

/-- The `.msg.proto` artifact (lines 205-219). -/
def msgProtoText (chainId netName svc now : String)
    (lookup : String → Option MsgDesc) (methods : List (String × MethodDesc)) :
    String :=
  headerText chainId netName svc now ++ msgBlocksText lookup (usedTypes methods)

/-! ### The per-network pipeline (`processNetwork`, lines 127-245) -/

/-- The reflection behaviour of the remote servers, per endpoint and
attempt: the two operations of §4.3 of the spec. -/
structure ReflOracle where
  listServices : String → Nat → Option (List String)
  fileContainingSymbol : String → String → Nat → Option Root

/-- One entry of `manifest.services` (lines 221-225). -/
structure ManifestEntry where
  service : String
  path : String
  methods : Nat
deriving DecidableEq, Repr

/-- One invocation of `fetchWithFailover` as observed from the pipeline:
the operation name, the endpoint list argument, and the event trace. -/
structure FailoverCall where
  fn : String
  endpoints : List String
  trace : List Event
deriving DecidableEq, Repr

/-- The value `processNetwork` resolves with (lines 150, 234-240, 243). -/
structure NetworkResult where
  network : String
  chainId : Option String
  success : Bool
  servicesCount : Option Nat
  outputDir : Option String
  error : Option String
deriving DecidableEq, Repr

/-- Outcome of the `for (const svc of services)` loop (lines 173-226):
manifest entries pushed, files written, failover invocations made, and the
error that aborted the loop, if any. -/
structure ServicesOutcome where
  entries : List ManifestEntry
  files : List (String × String)
  calls : List FailoverCall
  failure : Option String
deriving Repr

/-- The per-service loop (lines 173-226).  Reflection-introspection
services are skipped; a descriptor fetch failure throws, aborting the loop
(caught at line 241). -/
def processServices (o : ReflOracle) (eps : List String)
    (chainId netName now : String) : List String → ServicesOutcome
  | [] => ⟨[], [], [], none⟩
  | svc :: rest =>
    if jsStartsWith svc "grpc.reflection" then
      processServices o eps chainId netName now rest
    else
      match fetchWithFailover (o.fileContainingSymbol svc) "fileContainingSymbol" eps with
      | (evs, Except.error msg) =>
        ⟨[], [], [⟨"fileContainingSymbol", eps, evs⟩], some msg⟩
      | (evs, Except.ok (root, _usedEp)) =>
        let sd := root.lookupService svc
        let svcDir := pathJoin (pathJoin [OUT_DIR, chainId] :: jsSplit svc '.')
        let entry : ManifestEntry :=
          ⟨svc, jsReplaceFirst svcDir (OUT_DIR ++ "/") "", sd.methods.length⟩
        let fs : List (String × String) :=
          [(pathJoin [svcDir, sd.name ++ ".svc.proto"],
            svcProtoText chainId netName svc now sd),
           (pathJoin [svcDir, sd.name ++ ".msg.proto"],
            msgProtoText chainId netName svc now root.lookupType sd.methods)]
        let out := processServices o eps chainId netName now rest
        ⟨entry :: out.entries, fs ++ out.files,
         ⟨"fileContainingSymbol", eps, evs⟩ :: out.calls, out.failure⟩

/-- Everything observable about one pipeline run: the settled
`NetworkResult`, the manifest `services` array, the files written, and the
failover invocations made. -/
structure PipelineOutput where
  result : NetworkResult
  manifestServices : List ManifestEntry
  files : List (String × String)
  calls : List FailoverCall
deriving Repr

/-- `processNetwork(networkConfig)` (lines 127-245).  The chain-id loop
(lines 138-146) always succeeds on the first endpoint because `getChainId`
never throws, so `!chainId` at line 148 means: no endpoint at all, or an
empty chain id (the empty string is falsy). -/
def processNetwork (o : ReflOracle) (now : String) (cfg : NetworkConfig) :
    PipelineOutput :=
  match cfg.endpoints with
  | [] =>
    ⟨⟨cfg.name, none, false, none, none, some "Could not determine chain ID"⟩,
     [], [], []⟩
  | e :: _ =>
    let chainId := getChainId e
    if chainId = "" then
      ⟨⟨cfg.name, none, false, none, none, some "Could not determine chain ID"⟩,
       [], [], []⟩
    else
      match fetchWithFailover o.listServices "listServices" cfg.endpoints with
      | (evs, Except.error msg) =>
        ⟨⟨cfg.name, some chainId, false, none, none, some msg⟩,
         [], [], [⟨"listServices", cfg.endpoints, evs⟩]⟩
      | (evs, Except.ok (services, _usedEp)) =>
        let out := processServices o cfg.endpoints chainId cfg.name now services
        match out.failure with
        | some msg =>
          ⟨⟨cfg.name, some chainId, false, none, none, some msg⟩,
           out.entries, out.files, ⟨"listServices", cfg.endpoints, evs⟩ :: out.calls⟩
        | none =>
          ⟨⟨cfg.name, some chainId, true, some out.entries.length,
            some (pathJoin [OUT_DIR, chainId]), none⟩,
           out.entries, out.files, ⟨"listServices", cfg.endpoints, evs⟩ :: out.calls⟩

/-- The whole run: the configuration check at lines 41-45 exits with code 1
before any processing when no network is configured; otherwise `main` runs
every pipeline under `Promise.allSettled` and the process exits 0 (every
pipeline settles fulfilled because `processNetwork` catches its own
errors). -/
def runScript (env : List (String × String)) (o : ReflOracle) (now : String) :
    Nat × List PipelineOutput :=
  let configs := getNetworkConfigs env
  if configs.isEmpty then (1, [])
  else (0, configs.map (processNetwork o now))


/-- Modelled from the spec: "the deduplicated union of all its methods'
request/response types, in first-seen order (no re-ordering by name)" —
keep the first occurrence of each name and drop later duplicates. -/
def firstSeenDedup : List String → List String
  | [] => []
  | t :: rest => t :: firstSeenDedup (rest.filter (fun u => u ≠ t))
termination_by l => l.length
decreasing_by
  simp only [List.length_cons]
  exact Nat.lt_succ_of_le (List.length_filter_le _ _)

/-- A protobuf root holding a single unary `Balance` method on a `Query`
service; its message types resolve to nothing.  Used for concrete runs. -/
def bankQueryRoot : Root :=
  ⟨fun _ => ⟨"Query",
     [("Balance", ⟨"QueryBalanceRequest", "QueryBalanceResponse", false, false⟩)]⟩,
   fun _ => none⟩

/-- An oracle whose servers answer every attempt with the bank query
service. -/
def bankOracle : ReflOracle :=
  ⟨fun _ _ => some ["cosmos.bank.v1beta1.Query"], fun _ _ _ => some bankQueryRoot⟩

/-- An oracle whose servers never answer. -/
def failOracle : ReflOracle :=
  ⟨fun _ _ => none, fun _ _ _ => none⟩

/-- An oracle that lists zero services, succeeding on every first attempt. -/
def emptyListOracle : ReflOracle :=
  ⟨fun _ _ => some [], fun _ _ _ => none⟩

/-- Equality of modelled invocation results is decidable. -/
instance {ε σ : Type} [DecidableEq ε] [DecidableEq σ] :
    DecidableEq (Except ε σ) := fun a b =>
  match a, b with
  | Except.error x, Except.error y =>
    if h : x = y then isTrue (by rw [h])
    else isFalse (fun hh => by cases hh; exact h rfl)
  | Except.error _, Except.ok _ => isFalse (fun hh => by cases hh)
  | Except.ok _, Except.error _ => isFalse (fun hh => by cases hh)
  | Except.ok x, Except.ok y =>
    if h : x = y then isTrue (by rw [h])
    else isFalse (fun hh => by cases hh; exact h rfl)

end GrpcExplorer

namespace GrpcExplorer

variable {α : Type}

lemma runAttempts_zero (f : String → Nat → Option α) (ep : String) (a : Nat) :
    runAttempts f ep a 0 = ([], none) := rfl

lemma runAttempts_succ (f : String → Nat → Option α) (ep : String) (a n : Nat) :
    runAttempts f ep a (n + 1)
      = (match f ep a with
         | some r => ([Event.attempt ep a true], some r)
         | none =>
           ((Event.attempt ep a false ::
               (if a < RETRIES then [Event.wait RETRY_DELAY_MS] else [])) ++
              (runAttempts f ep (a + 1) n).1,
            (runAttempts f ep (a + 1) n).2)) := rfl

lemma epResult_eq (f : String → Nat → Option α) (ep : String) :
    epResult f ep
      = (match f ep 1 with
         | some r => some r
         | none =>
           match f ep 2 with
           | some r => some r
           | none => f ep 3) := by
  show (runAttempts f ep 1 3).2 = _
  rw [show (3 : Nat) = 2 + 1 from rfl, runAttempts_succ]
  cases h1 : f ep 1 with
  | some r => rfl
  | none =>
    show (runAttempts f ep 2 2).2 = _
    rw [show (2 : Nat) = 1 + 1 from rfl, runAttempts_succ]
    cases h2 : f ep 2 with
    | some r => rfl
    | none =>
      show (runAttempts f ep 3 1).2 = _
      rw [show (1 : Nat) = 0 + 1 from rfl, runAttempts_succ]
      cases h3 : f ep 3 with
      | some r => rfl
      | none => rfl

lemma epResult_none_iff (f : String → Nat → Option α) (ep : String) :
    epResult f ep = none ↔ ∀ n, 1 ≤ n → n ≤ RETRIES → f ep n = none := by
  rw [epResult_eq]
  constructor
  · intro h n hn1 hn3
    simp only [RETRIES] at hn3
    cases h1 : f ep 1 with
    | some r => rw [h1] at h; exact absurd h (by simp)
    | none =>
      rw [h1] at h
      cases h2 : f ep 2 with
      | some r => rw [h2] at h; exact absurd h (by simp)
      | none =>
        rw [h2] at h
        interval_cases n
        · exact h1
        · exact h2
        · exact h
  · intro h
    rw [h 1 (by decide) (by decide), h 2 (by decide) (by decide),
      h 3 (by decide) (by decide)]

lemma epResult_first_success (f : String → Nat → Option α) (ep : String)
    (n : Nat) (r : α) (hn1 : 1 ≤ n) (hn3 : n ≤ RETRIES) (hf : f ep n = some r)
    (hmin : ∀ m, 1 ≤ m → m < n → f ep m = none) :
    epResult f ep = some r := by
  rw [epResult_eq]
  simp only [RETRIES] at hn3
  interval_cases n
  · rw [hf]
  · rw [hmin 1 (by decide) (by decide), hf]
  · rw [hmin 1 (by decide) (by decide), hmin 2 (by decide) (by decide), hf]

lemma tryEndpoint_fst (f : String → Nat → Option α) (ep : String) :
    (tryEndpoint f ep).1 = Event.create ep :: (runAttempts f ep 1 RETRIES).1 := rfl

lemma tryEndpoint_snd (f : String → Nat → Option α) (ep : String) :
    (tryEndpoint f ep).2 = epResult f ep := rfl

lemma runAttempts_mem_cases (f : String → Nat → Option α) (ep : String) :
    ∀ (fuel a : Nat), ∀ ev ∈ (runAttempts f ep a fuel).1,
      (∃ n s, ev = Event.attempt ep n s) ∨ ev = Event.wait RETRY_DELAY_MS := by
  intro fuel
  induction fuel with
  | zero => intro a ev hev; simp [runAttempts_zero] at hev
  | succ m ih =>
    intro a ev hev
    rw [runAttempts_succ] at hev
    cases hf : f ep a with
    | some r =>
      rw [hf] at hev
      simp only [List.mem_singleton] at hev
      exact Or.inl ⟨a, true, hev⟩
    | none =>
      rw [hf] at hev
      simp only [List.cons_append, List.mem_cons, List.mem_append] at hev
      rcases hev with h | h
      · exact Or.inl ⟨a, false, h⟩
      rcases h with h | h
      · by_cases ha : a < RETRIES
        · simp [ha] at h; exact Or.inr h
        · simp [ha] at h
      · exact ih (a + 1) ev h

lemma mem_tryEndpoint_attemptsOn (f : String → Nat → Option α) (ep e : String)
    (ev : Event) (hev : ev ∈ (tryEndpoint f ep).1)
    (hatt : ev.attemptsOn e = true) : e = ep := by
  rw [tryEndpoint_fst] at hev
  rcases List.mem_cons.1 hev with h | h
  · subst h; simp [Event.attemptsOn] at hatt
  · rcases runAttempts_mem_cases f ep RETRIES 1 ev h with ⟨n, s, rfl⟩ | rfl
    · simp only [Event.attemptsOn, decide_eq_true_eq] at hatt
      exact hatt.symm
    · simp [Event.attemptsOn] at hatt

lemma tryEndpoint_creates (f : String → Nat → Option α) (ep : String) :
    (tryEndpoint f ep).1.filterMap Event.createdEp = [ep] := by
  have hnil : (runAttempts f ep 1 RETRIES).1.filterMap Event.createdEp = [] :=
    List.filterMap_eq_nil_iff.2 (fun ev hev => by
      rcases runAttempts_mem_cases f ep RETRIES 1 ev hev with ⟨n, s, rfl⟩ | rfl <;>
        rfl)
  rw [tryEndpoint_fst, List.filterMap_cons]
  simp [Event.createdEp, hnil]

lemma fetchWithFailover_error_iff (f : String → Nat → Option α) (fn : String) :
    ∀ eps : List String,
      ((fetchWithFailover f fn eps).2 = Except.error (allFailedMsg fn)
        ↔ ∀ ep ∈ eps, epResult f ep = none)
  | [] => by simp [fetchWithFailover]
  | ep :: rest => by
    rw [fetchWithFailover]
    cases h : epResult f ep with
    | some r => simp [h]
    | none => simpa [h] using fetchWithFailover_error_iff f fn rest

lemma fetchWithFailover_trace (f : String → Nat → Option α) (fn : String) :
    ∀ eps : List String,
      (fetchWithFailover f fn eps).1
        = ((visitedEndpoints f eps).map (fun e => (tryEndpoint f e).1)).flatten
  | [] => by simp [fetchWithFailover, visitedEndpoints]
  | ep :: rest => by
    rw [fetchWithFailover, visitedEndpoints]
    cases h : epResult f ep with
    | some r => simp
    | none => simp [fetchWithFailover_trace f fn rest]

lemma visitedEndpoints_isPre (f : String → Nat → Option α) :
    ∀ eps : List String, visitedEndpoints f eps <+: eps
  | [] => by simp [visitedEndpoints]
  | ep :: rest => by
    rw [visitedEndpoints]
    cases h : epResult f ep with
    | some r => exact ⟨rest, rfl⟩
    | none => exact List.cons_prefix_cons.2 ⟨rfl, visitedEndpoints_isPre f rest⟩

lemma fetchWithFailover_creates (f : String → Nat → Option α) (fn : String) :
    ∀ eps : List String,
      (fetchWithFailover f fn eps).1.filterMap Event.createdEp
        = visitedEndpoints f eps
  | [] => by simp [fetchWithFailover, visitedEndpoints]
  | ep :: rest => by
    rw [fetchWithFailover, visitedEndpoints]
    cases h : epResult f ep with
    | some r => simpa using tryEndpoint_creates f ep
    | none =>
      simpa [List.filterMap_append, tryEndpoint_creates] using
        fetchWithFailover_creates f fn rest

lemma fetchWithFailover_success (f : String → Nat → Option α) (fn : String)
    (ep : String) (r : α) (post : List String) :
    ∀ pre : List String, (∀ e ∈ pre, epResult f e = none) →
      epResult f ep = some r →
        (fetchWithFailover f fn (pre ++ ep :: post)).2 = Except.ok (r, ep)
        ∧ (fetchWithFailover f fn (pre ++ ep :: post)).1
            = ((pre.map (fun e => (tryEndpoint f e).1)).flatten
                ++ (tryEndpoint f ep).1)
  | [], _, hep => by
    rw [List.nil_append, fetchWithFailover, hep]
    simp
  | e :: pre, hpre, hep => by
    have he : epResult f e = none := hpre e (List.mem_cons_self e pre)
    have ih := fetchWithFailover_success f fn ep r post pre
      (fun x hx => hpre x (List.mem_cons_of_mem e hx)) hep
    rw [List.cons_append, fetchWithFailover, he]
    simp only [List.map_cons, List.flatten_cons, List.append_assoc]
    exact ⟨ih.1, by rw [ih.2]⟩

/-- C1: for every non-empty ordered endpoint list and every operation,
`fetchWithFailover` tries endpoints strictly in list order (the trace is the
in-order concatenation of one block per visited endpoint); on the first
successful attempt it returns that attempt's result paired with the endpoint
that produced it, without attempting any later endpoint; it throws the
all-endpoints-failed error if and only if every attempt on every endpoint
fails; and within one invocation an endpoint whose attempts are exhausted is
never attempted again (each endpoint position contributes exactly one
contiguous block to the trace). -/
theorem fetchWithFailover_failover_order (f : String → Nat → Option α)
    (fn : String) (eps : List String) (hne : eps ≠ []) :
    ((fetchWithFailover f fn eps).2 = Except.error (allFailedMsg fn)
        ↔ ∀ ep ∈ eps, ∀ n, 1 ≤ n → n ≤ RETRIES → f ep n = none)
    ∧ ((∀ ep ∈ eps, epResult f ep = none) →
        (fetchWithFailover f fn eps).1
          = (eps.map (fun e => (tryEndpoint f e).1)).flatten)
    ∧ (∀ pre ep post r, eps = pre ++ ep :: post →
        (∀ e ∈ pre, epResult f e = none) → epResult f ep = some r →
          (fetchWithFailover f fn eps).2 = Except.ok (r, ep)
          ∧ (fetchWithFailover f fn eps).1
              = ((pre.map (fun e => (tryEndpoint f e).1)).flatten
                  ++ (tryEndpoint f ep).1)
          ∧ ∀ e, e ∈ post → e ∉ pre → e ≠ ep →
              ∀ ev ∈ (fetchWithFailover f fn eps).1, ev.attemptsOn e = false)
    ∧ (∀ ep n r, 1 ≤ n → n ≤ RETRIES → f ep n = some r →
        (∀ m, 1 ≤ m → m < n → f ep m = none) → epResult f ep = some r) := by
  refine ⟨?_, ?_, ?_, ?_⟩
  · rw [fetchWithFailover_error_iff]
    exact forall₂_congr (fun ep _ => epResult_none_iff f ep)
  · intro hall
    rw [fetchWithFailover_trace]
    have : visitedEndpoints f eps = eps := by
      clear hne
      induction eps with
      | nil => rfl
      | cons e rest ih =>
        rw [visitedEndpoints, hall e (List.mem_cons_self e rest)]
        rw [ih (fun x hx => hall x (List.mem_cons_of_mem e hx))]
    rw [this]
  · intro pre ep post r heq hpre hep
    subst heq
    obtain ⟨h2, htr⟩ := fetchWithFailover_success f fn ep r post pre hpre hep
    refine ⟨h2, htr, ?_⟩
    intro e _hpost hnpre hnep ev hev
    cases hatt : ev.attemptsOn e with
    | false => rfl
    | true =>
      exfalso
      rw [htr] at hev
      rcases List.mem_append.1 hev with h | h
      · rcases List.mem_flatten.1 h with ⟨l, hl, hevl⟩
        rcases List.mem_map.1 hl with ⟨x, hx, rfl⟩
        exact hnpre ((mem_tryEndpoint_attemptsOn f x e ev hevl hatt) ▸ hx)
      · exact hnep (mem_tryEndpoint_attemptsOn f ep e ev h hatt)
  · exact fun ep n r h1 h3 hf hmin => epResult_first_success f ep n r h1 h3 hf hmin

/-- Witness for C1 at the oracle that always fails and the singleton list. -/
theorem fetchWithFailover_failover_order_witness :
    ((["a"] : List String) ≠ [])
    ∧ ((fetchWithFailover (fun _ _ => (none : Option Nat)) "listServices" ["a"]).2
          = Except.error (allFailedMsg "listServices")
        ↔ ∀ ep ∈ (["a"] : List String), ∀ n, 1 ≤ n → n ≤ RETRIES →
            (fun _ _ => (none : Option Nat)) ep n = none) :=
  ⟨by decide,
   (fetchWithFailover_failover_order (fun _ _ => (none : Option Nat))
      "listServices" ["a"] (by decide)).1⟩

/-- C2: an endpoint on which every attempt fails is attempted exactly 3
times, with a 2000ms wait after the first and after the second failed
attempt and none after the third, after which the retry loop reports
failure so that failover moves on to the next endpoint. -/
theorem failing_endpoint_three_attempts_two_waits (f : String → Nat → Option α)
    (ep : String) (h : ∀ n, 1 ≤ n → n ≤ RETRIES → f ep n = none) :
    (tryEndpoint f ep).1
      = [Event.create ep,
         Event.attempt ep 1 false, Event.wait RETRY_DELAY_MS,
         Event.attempt ep 2 false, Event.wait RETRY_DELAY_MS,
         Event.attempt ep 3 false]
    ∧ (tryEndpoint f ep).2 = none := by
  have h1 := h 1 (by decide) (by decide)
  have h2 := h 2 (by decide) (by decide)
  have h3 := h 3 (by decide) (by decide)
  constructor
  · rw [tryEndpoint_fst]
    show Event.create ep :: (runAttempts f ep 1 3).1 = _
    rw [show (3 : Nat) = 2 + 1 from rfl, runAttempts_succ, h1,
      show (2 : Nat) = 1 + 1 from rfl, runAttempts_succ, h2,
      show (1 : Nat) = 0 + 1 from rfl, runAttempts_succ, h3]
    rfl
  · rw [tryEndpoint_snd]
    exact (epResult_none_iff f ep).2 h

/-- Witness for C2 at the oracle that always fails. -/
theorem failing_endpoint_three_attempts_two_waits_witness :
    (∀ n, 1 ≤ n → n ≤ RETRIES → (fun _ _ => (none : Option Nat)) "a" n = none)
    ∧ ((tryEndpoint (fun _ _ => (none : Option Nat)) "a").1
        = [Event.create "a",
           Event.attempt "a" 1 false, Event.wait RETRY_DELAY_MS,
           Event.attempt "a" 2 false, Event.wait RETRY_DELAY_MS,
           Event.attempt "a" 3 false]
      ∧ (tryEndpoint (fun _ _ => (none : Option Nat)) "a").2 = none) :=
  ⟨fun _ _ _ => rfl,
   failing_endpoint_three_attempts_two_waits (fun _ _ => (none : Option Nat))
     "a" (fun _ _ _ => rfl)⟩

/-- C4 counterexample: with one endpoint whose first two attempts fail and
whose third succeeds, the invocation creates exactly one reflection client
while making three attempts — so a fresh client is not created for every
individual attempt, contradicting the claim. -/
theorem client_reused_across_attempts_cex :
    ((fetchWithFailover (fun _ n => if n = 3 then some (7 : Nat) else none)
        "listServices" ["a"]).1.filterMap Event.createdEp).length = 1
    ∧ ((fetchWithFailover (fun _ n => if n = 3 then some (7 : Nat) else none)
        "listServices" ["a"]).1.countP Event.isAttemptEv) = 3
    ∧ (fetchWithFailover (fun _ n => if n = 3 then some (7 : Nat) else none)
        "listServices" ["a"]).2 = Except.ok (7, "a") := by decide

/-- C4 amended: within one invocation of `fetchWithFailover` a reflection
client is created exactly once per visited endpoint — before that
endpoint's attempt loop, reused across the up-to-3 attempts on that
endpoint — and not once per attempt; a new client is created only when
failover moves to the next endpoint. -/
theorem client_created_once_per_visited_endpoint (f : String → Nat → Option α)
    (fn : String) (eps : List String) :
    ((fetchWithFailover f fn eps).1.filterMap Event.createdEp
        = visitedEndpoints f eps)
    ∧ (∀ ep, (tryEndpoint f ep).1.filterMap Event.createdEp = [ep])
    ∧ ((fetchWithFailover f fn eps).1
        = ((visitedEndpoints f eps).map (fun e => (tryEndpoint f e).1)).flatten) :=
  ⟨fetchWithFailover_creates f fn eps, tryEndpoint_creates f,
   fetchWithFailover_trace f fn eps⟩

end GrpcExplorer

namespace GrpcExplorer

/-- C5 counterexample: the substring table is applied to the whole endpoint
string, not to its host portion.  On `"example.com:443osmosis"` the code
returns `"osmosis-1"` although the host portion `"example.com"` matches no
table entry, so the claim's host-portion reading predicts
`"example-com"`. -/
theorem chain_table_matches_full_endpoint_cex :
    getChainId "example.com:443osmosis" = "osmosis-1"
    ∧ getChainIdHostMatched "example.com:443osmosis" = "example-com"
    ∧ ("osmosis-1" : String) ≠ "example-com" := by
  refine ⟨by decide, by decide, by decide⟩

/-- C5 amended: `getChainId` applies the fixed substring table (cosmoshub,
osmosis, neutron, juno, akash, first match wins) to the ENTIRE endpoint
string; only when no entry matches does it sanitize the host portion (text
before the first colon, every character outside `[A-Za-z0-9-]` replaced by
a dash), so `"foo.bar.net:443"` resolves to `"foo-bar-net"`. -/
theorem getChainId_table_on_full_endpoint :
    (∀ e, getChainId e =
      (match chainTable.find? (fun p => jsIncludes e p.1) with
       | some p => p.2
       | none => sanitizeHost e))
    ∧ getChainId "foo.bar.net:443" = "foo-bar-net" := by
  constructor
  · intro e
    show getChainId e = _
    rw [getChainId, chainTable]
    cases h1 : jsIncludes e "cosmoshub" <;>
      cases h2 : jsIncludes e "osmosis" <;>
        cases h3 : jsIncludes e "neutron" <;>
          cases h4 : jsIncludes e "juno" <;>
            cases h5 : jsIncludes e "akash" <;>
              simp [List.find?, h1, h2, h3, h4, h5]
  · decide

/-- C6: the claimed positional override does not exist in the code.
`getNetworkConfigs` (lines 14-39) reads only the environment —
`process.argv` is never consulted anywhere in `script.js` (the model
therefore has no argument parameter at all) — so with a `GRPC_*` variable
set, the resolver still yields the environment-derived network rather than
a single `"default"` network built from the invocation argument. -/
theorem positional_override_absent_env_used :
    getNetworkConfigs [("GRPC_OSMOSIS", "grpc.osmosis.zone:443")]
      = [⟨"osmosis", ["grpc.osmosis.zone:443"]⟩] := by decide

/-- C7 counterexample: a keyed entry whose value contains only separators
and whitespace is truthy, so it produces a network — with zero
endpoints. -/
theorem keyed_entry_yields_empty_endpoint_list_cex :
    getNetworkConfigs [("GRPC_FOO", " , ")] = [⟨"foo", []⟩] := by decide

/-- C7 amended: every endpoint string inside every produced `NetworkConfig`
is non-empty (the split/trim/filter pipeline drops empty tokens), but the
endpoint LIST itself may be empty: a keyed entry whose value contains only
separators and whitespace yields a network with zero endpoints. -/
theorem produced_endpoints_nonempty_strings (env : List (String × String))
    (cfg : NetworkConfig) (e : String)
    (hcfg : cfg ∈ getNetworkConfigs env) (he : e ∈ cfg.endpoints) :
    e ≠ "" := by
  have hparse : ∀ v : String, e ∈ parseEndpoints v → e ≠ "" := by
    intro v hv
    have := (List.mem_filter.1 hv).2
    exact of_decide_eq_true this
  rcases List.mem_append.1 hcfg with h | h
  · rcases hlk : envLookup env "GRPC" with _ | v
    · rw [hlk] at h; simp at h
    · rw [hlk] at h
      dsimp only at h
      by_cases hv : v ≠ ""
      · rw [if_pos hv] at h
        rcases List.mem_singleton.1 h with rfl
        exact hparse v he
      · rw [if_neg hv] at h
        simp at h
  · rcases List.mem_filterMap.1 h with ⟨p, _hp, hsome⟩
    by_cases h5 : jsStartsWith p.1 "GRPC_" = true
    · rw [if_pos h5] at hsome
      by_cases hv : p.2 ≠ ""
      · rw [if_pos hv] at hsome
        cases Option.some.inj hsome
        exact hparse p.2 he
      · rw [if_neg hv] at hsome
        cases hsome
    · rw [if_neg h5] at hsome
      cases hsome

/-- Witness for C7's amended theorem on a concrete legacy configuration. -/
theorem produced_endpoints_nonempty_strings_witness :
    ((⟨"default", ["a"]⟩ : NetworkConfig) ∈ getNetworkConfigs [("GRPC", "a")]
      ∧ "a" ∈ (⟨"default", ["a"]⟩ : NetworkConfig).endpoints)
    ∧ ("a" : String) ≠ "" :=
  ⟨⟨by decide, by decide⟩,
   produced_endpoints_nonempty_strings [("GRPC", "a")] ⟨"default", ["a"]⟩ "a"
     (by decide) (by decide)⟩

end GrpcExplorer

namespace GrpcExplorer

lemma foldl_insertNew (l : List String) :
    ∀ acc : List String,
      l.foldl insertNew acc
        = acc ++ firstSeenDedup (l.filter (fun x => decide (x ∉ acc))) := by
  induction l with
  | nil => intro acc; simp [firstSeenDedup]
  | cons a l ih =>
    intro acc
    by_cases ha : a ∈ acc
    · have h1 : insertNew acc a = acc := if_pos ha
      have h2 : decide (a ∉ acc) = false := by simp [ha]
      rw [List.foldl_cons, h1, List.filter_cons, h2, if_neg (by simp)]
      exact ih acc
    · have h1 : insertNew acc a = acc ++ [a] := if_neg ha
      have h2 : decide (a ∉ acc) = true := by simp [ha]
      rw [List.foldl_cons, h1, List.filter_cons, h2, if_pos rfl, ih (acc ++ [a])]
      rw [firstSeenDedup]
      have h3 : (l.filter (fun x => decide (x ∉ acc ++ [a])))
          = (l.filter (fun x => decide (x ∉ acc))).filter (fun u => decide (u ≠ a)) := by
        rw [List.filter_filter]
        refine List.filter_congr ?_
        intro x _
        rcases Decidable.em (x = a) with h | h <;>
          rcases Decidable.em (x ∈ acc) with h2 | h2 <;>
            simp [h, h2]
      rw [h3]
      simp

lemma usedTypes_eq_firstSeen (methods : List (String × MethodDesc)) :
    usedTypes methods = firstSeenDedup (methodRefTypes methods) := by
  have h := foldl_insertNew (methodRefTypes methods) []
  rw [usedTypes, h, List.nil_append]
  congr 1
  refine (List.filter_eq_self.2 ?_)
  intro x _
  simp

lemma mem_firstSeenDedup (x : String) (l : List String) :
    x ∈ firstSeenDedup l ↔ x ∈ l := by
  induction l using firstSeenDedup.induct with
  | case1 => simp [firstSeenDedup]
  | case2 t rest ih =>
    rw [firstSeenDedup]
    by_cases hx : x = t
    · simp [hx]
    · simp only [List.mem_cons, hx, false_or]
      rw [ih]
      simp [List.mem_filter, hx]

lemma firstSeenDedup_nodup (l : List String) : (firstSeenDedup l).Nodup := by
  induction l using firstSeenDedup.induct with
  | case1 => simp [firstSeenDedup]
  | case2 t rest ih =>
    rw [firstSeenDedup]
    refine List.nodup_cons.2 ⟨?_, ih⟩
    rw [mem_firstSeenDedup]
    simp [List.mem_filter]

lemma firstSeenDedup_sublist (l : List String) :
    List.Sublist (firstSeenDedup l) l := by
  induction l using firstSeenDedup.induct with
  | case1 => simp [firstSeenDedup]
  | case2 t rest ih =>
    rw [firstSeenDedup]
    exact ((ih.trans (List.filter_sublist rest)).cons₂ t)

lemma msgBlocksText_eq_filterMap (lookup : String → Option MsgDesc) :
    ∀ ts : List String,
      msgBlocksText lookup ts = concatStrings (ts.filterMap (renderTypeOpt lookup))
  | [] => rfl
  | t :: rest => by
    rw [msgBlocksText, List.filterMap_cons]
    cases h : renderTypeOpt lookup t <;>
      simp [h, concatStrings, msgBlocksText_eq_filterMap lookup rest]

/-- The per-service step always emits the `.svc.proto` artifact when the
descriptor fetch succeeds, regardless of whether any referenced message
type resolves. -/
lemma svc_text_emitted (o : ReflOracle) (eps : List String)
    (chainId netName now svc : String) (rest : List String)
    (hskip : jsStartsWith svc "grpc.reflection" = false)
    (evs : List Event) (root : Root) (usedEp : String)
    (hf : fetchWithFailover (o.fileContainingSymbol svc) "fileContainingSymbol" eps
            = (evs, Except.ok (root, usedEp))) :
    (pathJoin [pathJoin (pathJoin [OUT_DIR, chainId] :: jsSplit svc '.'),
        (root.lookupService svc).name ++ ".svc.proto"],
      svcProtoText chainId netName svc now (root.lookupService svc))
      ∈ (processServices o eps chainId netName now (svc :: rest)).files := by
  rw [processServices, hskip]
  rw [if_neg (by simp)]
  rw [hf]
  dsimp only
  exact List.mem_append_left _ (List.mem_cons_self _ _)

/-- C8: the message-text artifact of a service contains exactly one block
per distinct type in the deduplicated union of the methods' request and
response types (request before response within each method), in first-seen
order — `usedTypes` equals the spec-side `firstSeenDedup` of the raw
reference sequence, has no duplicates, contains exactly the referenced
types, and preserves their relative order — and a referenced type that
resolves to no descriptor or has no `fields` is silently dropped by the
`filterMap`, while the service text artifact is emitted regardless
(`svc_text_emitted` restated as the last conjunct). -/
theorem message_blocks_first_seen_dedup (lookup : String → Option MsgDesc)
    (methods : List (String × MethodDesc)) :
    usedTypes methods = firstSeenDedup (methodRefTypes methods)
    ∧ (usedTypes methods).Nodup
    ∧ (∀ t, t ∈ usedTypes methods ↔ t ∈ methodRefTypes methods)
    ∧ List.Sublist (usedTypes methods) (methodRefTypes methods)
    ∧ msgBlocksText lookup (usedTypes methods)
        = concatStrings ((usedTypes methods).filterMap (renderTypeOpt lookup))
    ∧ (∀ t, renderTypeOpt lookup t = none
        ↔ (lookup t = none ∨ ∃ m, lookup t = some m ∧ m.fields = none))
    ∧ (∀ (o : ReflOracle) (eps : List String)
         (chainId netName now svc : String) (rest : List String),
         jsStartsWith svc "grpc.reflection" = false →
         ∀ (evs : List Event) (root : Root) (usedEp : String),
           fetchWithFailover (o.fileContainingSymbol svc)
               "fileContainingSymbol" eps = (evs, Except.ok (root, usedEp)) →
           (pathJoin [pathJoin (pathJoin [OUT_DIR, chainId] :: jsSplit svc '.'),
               (root.lookupService svc).name ++ ".svc.proto"],
             svcProtoText chainId netName svc now (root.lookupService svc))
             ∈ (processServices o eps chainId netName now (svc :: rest)).files) := by
  have hu := usedTypes_eq_firstSeen methods
  refine ⟨hu, ?_, ?_, ?_, msgBlocksText_eq_filterMap lookup _, ?_, ?_⟩
  · rw [hu]; exact firstSeenDedup_nodup _
  · intro t; rw [hu]; exact mem_firstSeenDedup t _
  · rw [hu]; exact firstSeenDedup_sublist _
  · intro t
    rw [renderTypeOpt]
    cases hl : lookup t with
    | none => simp
    | some m =>
      cases hfld : m.fields with
      | none => simp [hfld]
      | some fs => simp [hfld]
  · intro o eps chainId netName now svc rest hskip evs root usedEp hf
    exact svc_text_emitted o eps chainId netName now svc rest hskip evs root
      usedEp hf

/-- Witness for C8 on a two-method service sharing a request type, with one
resolvable and one unresolvable message type, and a successful concrete
service-processing step. -/
theorem message_blocks_first_seen_dedup_witness :
    usedTypes [("A", ⟨"T1", "T2", false, false⟩), ("B", ⟨"T1", "T3", false, false⟩)]
      = ["T1", "T2", "T3"]
    ∧ (usedTypes [("A", ⟨"T1", "T2", false, false⟩), ("B", ⟨"T1", "T3", false, false⟩)]).Nodup
    ∧ (pathJoin [pathJoin (pathJoin [OUT_DIR, "osmosis-1"]
          :: jsSplit "cosmos.bank.v1beta1.Query" '.'),
        ((bankQueryRoot.lookupService "cosmos.bank.v1beta1.Query").name
          ++ ".svc.proto")],
       svcProtoText "osmosis-1" "osmosis" "cosmos.bank.v1beta1.Query" "T"
         (bankQueryRoot.lookupService "cosmos.bank.v1beta1.Query"))
      ∈ (processServices bankOracle ["grpc.osmosis.zone:443"] "osmosis-1"
          "osmosis" "T" ["cosmos.bank.v1beta1.Query"]).files := by
  refine ⟨by decide, ?_, ?_⟩
  · exact (message_blocks_first_seen_dedup (fun _ => none)
      [("A", ⟨"T1", "T2", false, false⟩), ("B", ⟨"T1", "T3", false, false⟩)]).2.1
  · exact (message_blocks_first_seen_dedup bankQueryRoot.lookupType
      [("Balance", ⟨"QueryBalanceRequest", "QueryBalanceResponse", false, false⟩)]).2.2.2.2.2.2
      bankOracle ["grpc.osmosis.zone:443"] "osmosis-1" "osmosis" "T"
      "cosmos.bank.v1beta1.Query" [] (by decide)
      [Event.create "grpc.osmosis.zone:443",
       Event.attempt "grpc.osmosis.zone:443" 1 true]
      bankQueryRoot "grpc.osmosis.zone:443" rfl

/-- C3 (code bug): the manifest entry path for a successfully rendered
service is NOT relative to the output root: `path.join` normalizes
`"./output"` to `"output"`, so the strip of the `"./output/"` prefix at
line 223 never matches and the pushed path keeps the `"output/"` prefix
instead of beginning with the chain identifier. -/
theorem manifest_path_retains_output_prefix :
    (processNetwork bankOracle "T" ⟨"osmosis", ["grpc.osmosis.zone:443"]⟩).manifestServices
      = [⟨"cosmos.bank.v1beta1.Query",
          "output/osmosis-1/cosmos/bank/v1beta1/Query", 1⟩]
    ∧ jsStartsWith "output/osmosis-1/cosmos/bank/v1beta1/Query" "osmosis-1" = false
    ∧ jsStartsWith "output/osmosis-1/cosmos/bank/v1beta1/Query" "output/" = true := by
  refine ⟨by decide, by decide, by decide⟩

/-- C9: the run exits nonzero exactly when zero networks are configured;
the exit code is independent of every pipeline outcome (so failed networks
never change it), and with at least one network configured the exit code is
0 and the summary settles one result per configured network. -/
theorem exit_nonzero_iff_no_networks (env : List (String × String))
    (o o2 : ReflOracle) (now now2 : String) :
    ((runScript env o now).1 ≠ 0 ↔ getNetworkConfigs env = [])
    ∧ (runScript env o now).1 = (runScript env o2 now2).1
    ∧ ((runScript env o now).1 = 0 →
        (runScript env o now).2 = (getNetworkConfigs env).map (processNetwork o now)) := by
  by_cases h : getNetworkConfigs env = []
  · simp [runScript, h]
  · have hie : (getNetworkConfigs env).isEmpty = false := by
      simpa [List.isEmpty_iff] using h
    simp [runScript, hie, h]

/-- Witness for C9: one configured network whose every endpoint is dead
still gives exit code 0 and a settled (failed) result in the summary. -/
theorem exit_nonzero_iff_no_networks_witness :
    (runScript [("GRPC", "a")] failOracle "T").1 = 0
    ∧ (runScript [("GRPC", "a")] failOracle "T").2
        = (getNetworkConfigs [("GRPC", "a")]).map (processNetwork failOracle "T")
    ∧ ((runScript [("GRPC", "a")] failOracle "T").2.map
        (fun p => p.result.success)) = [false] :=
  ⟨by decide,
   (exit_nonzero_iff_no_networks [("GRPC", "a")] failOracle failOracle
      "T" "T").2.2 (by decide),
   by decide⟩

lemma fetchWithFailover_fst_creates_isPre {α : Type}
    (f : String → Nat → Option α)
    (fn : String) (eps : List String) (evs : List Event)
    (hf : (fetchWithFailover f fn eps).1 = evs) :
    List.IsPrefix (evs.filterMap Event.createdEp) eps := by
  rw [← hf, fetchWithFailover_creates]
  exact visitedEndpoints_isPre f eps

lemma processServices_calls (o : ReflOracle) (eps : List String)
    (chainId netName now : String) :
    ∀ svcs : List String,
      ∀ c ∈ (processServices o eps chainId netName now svcs).calls,
        c.endpoints = eps ∧ List.IsPrefix (c.trace.filterMap Event.createdEp) eps
  | [] => by
    intro c hc
    simp [processServices] at hc
  | svc :: rest => by
    intro c hc
    rw [processServices] at hc
    by_cases hs : jsStartsWith svc "grpc.reflection" = true
    · rw [if_pos hs] at hc
      exact processServices_calls o eps chainId netName now rest c hc
    · rw [if_neg hs] at hc
      rcases hfull : fetchWithFailover (o.fileContainingSymbol svc)
          "fileContainingSymbol" eps with ⟨evs, res⟩
      rw [hfull] at hc
      have hevs : (fetchWithFailover (o.fileContainingSymbol svc)
          "fileContainingSymbol" eps).1 = evs := by rw [hfull]
      cases res with
      | error msg =>
        dsimp only at hc
        rcases List.mem_singleton.1 hc with rfl
        exact ⟨rfl, fetchWithFailover_fst_creates_isPre _ _ _ _ hevs⟩
      | ok pr =>
        rcases pr with ⟨root, usedEp⟩
        dsimp only at hc
        rcases List.mem_cons.1 hc with rfl | hc2
        · exact ⟨rfl, fetchWithFailover_fst_creates_isPre _ _ _ _ hevs⟩
        · exact processServices_calls o eps chainId netName now rest c hc2

/-- C10: every failover invocation made by one network pipeline — the
initial `listServices` call and every per-service `fileContainingSymbol`
call — is handed the network's full configured endpoint list, and the
endpoints it actually visits are an in-order prefix of that list starting
at its first element; nothing learned by earlier invocations (or by the
identity resolver) reorders or skips endpoints in later invocations. -/
theorem failover_calls_use_configured_list (o : ReflOracle) (now : String)
    (cfg : NetworkConfig) (c : FailoverCall)
    (hc : c ∈ (processNetwork o now cfg).calls) :
    c.endpoints = cfg.endpoints
    ∧ List.IsPrefix (c.trace.filterMap Event.createdEp) cfg.endpoints := by
  obtain ⟨nm, eps⟩ := cfg
  rw [processNetwork] at hc
  dsimp only at hc ⊢
  cases eps with
  | nil => simp at hc
  | cons e erest =>
    dsimp only at hc
    by_cases hcid : getChainId e = ""
    · rw [if_pos hcid] at hc
      simp at hc
    · rw [if_neg hcid] at hc
      rcases hfull : fetchWithFailover o.listServices "listServices"
          (e :: erest) with ⟨evs, res⟩
      rw [hfull] at hc
      have hevs : (fetchWithFailover o.listServices "listServices"
          (e :: erest)).1 = evs := by rw [hfull]
      cases res with
      | error msg =>
        dsimp only at hc
        rcases List.mem_singleton.1 hc with rfl
        exact ⟨rfl, fetchWithFailover_fst_creates_isPre _ _ _ _ hevs⟩
      | ok pr =>
        rcases pr with ⟨services, usedEp⟩
        dsimp only at hc
        rcases hout : (processServices o (e :: erest) (getChainId e) nm
            now services).failure with _ | msg
        · rw [hout] at hc
          dsimp only at hc
          rcases List.mem_cons.1 hc with rfl | hc2
          · exact ⟨rfl, fetchWithFailover_fst_creates_isPre _ _ _ _ hevs⟩
          · exact processServices_calls o (e :: erest) (getChainId e) nm now
              services c hc2
        · rw [hout] at hc
          dsimp only at hc
          rcases List.mem_cons.1 hc with rfl | hc2
          · exact ⟨rfl, fetchWithFailover_fst_creates_isPre _ _ _ _ hevs⟩
          · exact processServices_calls o (e :: erest) (getChainId e) nm now
              services c hc2

/-- Witness for C10: the single `listServices` call of a concrete pipeline
run is handed the full two-endpoint configured list and visits a prefix of
it. -/
theorem failover_calls_use_configured_list_witness :
    (⟨"listServices", ["a", "b"],
        [Event.create "a", Event.attempt "a" 1 true]⟩ : FailoverCall).endpoints
      = (⟨"n", ["a", "b"]⟩ : NetworkConfig).endpoints
    ∧ List.IsPrefix
        ((⟨"listServices", ["a", "b"],
            [Event.create "a", Event.attempt "a" 1 true]⟩ : FailoverCall).trace.filterMap
          Event.createdEp)
        (⟨"n", ["a", "b"]⟩ : NetworkConfig).endpoints :=
  failover_calls_use_configured_list emptyListOracle "T" ⟨"n", ["a", "b"]⟩
    ⟨"listServices", ["a", "b"], [Event.create "a", Event.attempt "a" 1 true]⟩
    (by decide)

end GrpcExplorer
